import Mathlib

/-!
A shallow embedding of the `katerina-v2` ray tracer core, together with
theorems settling the frozen claims about its specification.

Conventions of the embedding:
* `f64` values are modelled as real numbers (`ℝ`); the source performs no
  overflow-sensitive integer arithmetic on the verified paths.  Where the
  source manufactures IEEE infinities (`f64::INFINITY` in the cube slab
  test) the affected routine is modelled over `EReal`, which represents
  `±∞` faithfully for the inputs exercised here.
* Rust `&mut` methods are modelled as functions returning the updated
  value; `clone()` is the identity on values.
* `Vec<T>` is `List T`; `push` appends at the end, `last()` reads the end.
* Rust's `sort_by` is a stable sort by the given comparator; it is
  modelled by `List.insertionSort`, which is also stable, and stable
  sorts by a total preorder agree extensionally.
* The repository snapshot does not contain `ray.rs` (only its callers),
  and the current `Shape` dispatch enum (the one with `Group`, `Cylinder`
  and `Cone` variants used by `object.rs`) is likewise absent; those two
  glue pieces are modelled from the spec, as marked below.  Every
  algorithm a claim depends on is taken from the sources.
-/

noncomputable section

open scoped Classical

namespace RT

/-- Tuple (tuple.rs): 4-component homogeneous value.  The source uses a
positional struct `Tuple(f64, f64, f64, f64)`; fields are named x y z w
here, in order. -/
@[ext] structure Tuple where
  x : ℝ
  y : ℝ
  z : ℝ
  w : ℝ

namespace Tuple

/-- Tuple::point (tuple.rs). -/
def point (x y z : ℝ) : Tuple := ⟨x, y, z, 1⟩

/-- Tuple::vector (tuple.rs). -/
def vector (x y z : ℝ) : Tuple := ⟨x, y, z, 0⟩

/-- Tuple::color (tuple.rs). -/
def color (r g b : ℝ) : Tuple := ⟨r, g, b, 0⟩

instance : Add Tuple := ⟨fun a b => ⟨a.x + b.x, a.y + b.y, a.z + b.z, a.w + b.w⟩⟩

instance : Sub Tuple := ⟨fun a b => ⟨a.x - b.x, a.y - b.y, a.z - b.z, a.w - b.w⟩⟩

instance : Neg Tuple := ⟨fun a => ⟨-a.x, -a.y, -a.z, -a.w⟩⟩

/-- Scalar multiple, `impl Mul<f64> for Tuple` (tuple.rs). -/
def smul (a : Tuple) (s : ℝ) : Tuple := ⟨a.x * s, a.y * s, a.z * s, a.w * s⟩

/-- Tuple::dot (tuple.rs). -/
def dot (a b : Tuple) : ℝ := a.x * b.x + a.y * b.y + a.z * b.z + a.w * b.w

/-- Tuple::magnitude (tuple.rs): all four components participate. -/
def magnitude (a : Tuple) : ℝ := Real.sqrt (a.x ^ 2 + a.y ^ 2 + a.z ^ 2 + a.w ^ 2)

/-- Tuple::normalize (tuple.rs). -/
def normalize (a : Tuple) : Tuple :=
  ⟨a.x / a.magnitude, a.y / a.magnitude, a.z / a.magnitude, a.w / a.magnitude⟩

/-- Tuple::reflect (tuple.rs): `*self - normal * 2.0 * self.dot(normal)`. -/
def reflect (a normal : Tuple) : Tuple := a - (normal.smul 2).smul (a.dot normal)

@[simp] theorem add_def (a b : Tuple) :
    a + b = ⟨a.x + b.x, a.y + b.y, a.z + b.z, a.w + b.w⟩ := rfl

@[simp] theorem sub_def (a b : Tuple) :
    a - b = ⟨a.x - b.x, a.y - b.y, a.z - b.z, a.w - b.w⟩ := rfl

@[simp] theorem neg_def (a : Tuple) : -a = ⟨-a.x, -a.y, -a.z, -a.w⟩ := rfl

end Tuple

/-- Matrix (matrix.rs) specialised to the 4×4 case, the only size the
verified code paths construct (`size` is always 4 for transforms and
shapes; the 3×3 and 2×2 cases arise only inside the cofactor recursion
and are inlined below as `det3`/`det2`).  Fields d0…d15 mirror the
row-major `data` vector. -/
@[ext] structure M4 where
  d0 : ℝ
  d1 : ℝ
  d2 : ℝ
  d3 : ℝ
  d4 : ℝ
  d5 : ℝ
  d6 : ℝ
  d7 : ℝ
  d8 : ℝ
  d9 : ℝ
  d10 : ℝ
  d11 : ℝ
  d12 : ℝ
  d13 : ℝ
  d14 : ℝ
  d15 : ℝ

/-- Determinant of a 2×2 matrix (matrix.rs `determinant`, size-2 closed
form: `data[0]*data[3] - data[1]*data[2]`). -/
def det2 (a b c d : ℝ) : ℝ := a * d - b * c

/-- Determinant of a 3×3 matrix by cofactor expansion along row 0
(matrix.rs `determinant`/`cofactor`/`submatrix` for size 3, unrolled;
arguments are the row-major entries). -/
def det3 (m0 m1 m2 m3 m4 m5 m6 m7 m8 : ℝ) : ℝ :=
  m0 * det2 m4 m5 m7 m8 - m1 * det2 m3 m5 m6 m8 + m2 * det2 m3 m4 m6 m7

namespace M4

/-- Matrix::identity (matrix.rs). -/
def identity : M4 := ⟨1,0,0,0, 0,1,0,0, 0,0,1,0, 0,0,0,1⟩

/-- Matrix::transpose (matrix.rs), size-4 arm. -/
def transpose (m : M4) : M4 :=
  ⟨m.d0, m.d4, m.d8, m.d12,
   m.d1, m.d5, m.d9, m.d13,
   m.d2, m.d6, m.d10, m.d14,
   m.d3, m.d7, m.d11, m.d15⟩

/-- Matrix::cofactor (matrix.rs) for the 4×4 case: signed determinant of
the 3×3 submatrix obtained by deleting row `r` and column `c`; sign
`(-1)^(r+c)` as in the source's `(row + col) % 2` test.  Out-of-range
indices (unreachable in the source, which loops over 0..4) yield 0. -/
def cofactor (m : M4) (r c : ℕ) : ℝ :=
  match r, c with
  | 0, 0 =>   det3 m.d5 m.d6 m.d7 m.d9 m.d10 m.d11 m.d13 m.d14 m.d15
  | 0, 1 => - det3 m.d4 m.d6 m.d7 m.d8 m.d10 m.d11 m.d12 m.d14 m.d15
  | 0, 2 =>   det3 m.d4 m.d5 m.d7 m.d8 m.d9 m.d11 m.d12 m.d13 m.d15
  | 0, 3 => - det3 m.d4 m.d5 m.d6 m.d8 m.d9 m.d10 m.d12 m.d13 m.d14
  | 1, 0 => - det3 m.d1 m.d2 m.d3 m.d9 m.d10 m.d11 m.d13 m.d14 m.d15
  | 1, 1 =>   det3 m.d0 m.d2 m.d3 m.d8 m.d10 m.d11 m.d12 m.d14 m.d15
  | 1, 2 => - det3 m.d0 m.d1 m.d3 m.d8 m.d9 m.d11 m.d12 m.d13 m.d15
  | 1, 3 =>   det3 m.d0 m.d1 m.d2 m.d8 m.d9 m.d10 m.d12 m.d13 m.d14
  | 2, 0 =>   det3 m.d1 m.d2 m.d3 m.d5 m.d6 m.d7 m.d13 m.d14 m.d15
  | 2, 1 => - det3 m.d0 m.d2 m.d3 m.d4 m.d6 m.d7 m.d12 m.d14 m.d15
  | 2, 2 =>   det3 m.d0 m.d1 m.d3 m.d4 m.d5 m.d7 m.d12 m.d13 m.d15
  | 2, 3 => - det3 m.d0 m.d1 m.d2 m.d4 m.d5 m.d6 m.d12 m.d13 m.d14
  | 3, 0 => - det3 m.d1 m.d2 m.d3 m.d5 m.d6 m.d7 m.d9 m.d10 m.d11
  | 3, 1 =>   det3 m.d0 m.d2 m.d3 m.d4 m.d6 m.d7 m.d8 m.d10 m.d11
  | 3, 2 => - det3 m.d0 m.d1 m.d3 m.d4 m.d5 m.d7 m.d8 m.d9 m.d11
  | 3, 3 =>   det3 m.d0 m.d1 m.d2 m.d4 m.d5 m.d6 m.d8 m.d9 m.d10
  | _, _ => 0

/-- Matrix::determinant (matrix.rs), size 4: cofactor expansion along
row 0 (`det += data[c] * cofactor(0, c)` for c in 0..4). -/
def det (m : M4) : ℝ :=
  m.d0 * m.cofactor 0 0 + m.d1 * m.cofactor 0 1 +
  m.d2 * m.cofactor 0 2 + m.d3 * m.cofactor 0 3

/-- Matrix::inverse (matrix.rs), size-4 arm: `data[c*4+r] =
cofactor(r, c) / det` (transposed cofactors).  The source panics when
the determinant is exactly 0; the claims never invert a singular
matrix, and real division by zero makes this model total there. -/
def inverse (m : M4) : M4 :=
  ⟨m.cofactor 0 0 / m.det, m.cofactor 1 0 / m.det, m.cofactor 2 0 / m.det, m.cofactor 3 0 / m.det,
   m.cofactor 0 1 / m.det, m.cofactor 1 1 / m.det, m.cofactor 2 1 / m.det, m.cofactor 3 1 / m.det,
   m.cofactor 0 2 / m.det, m.cofactor 1 2 / m.det, m.cofactor 2 2 / m.det, m.cofactor 3 2 / m.det,
   m.cofactor 0 3 / m.det, m.cofactor 1 3 / m.det, m.cofactor 2 3 / m.det, m.cofactor 3 3 / m.det⟩

/-- Matrix × Tuple application, `impl Mul<&Tuple> for &Matrix`
(matrix.rs). -/
def mulT (m : M4) (o : Tuple) : Tuple :=
  ⟨m.d0 * o.x + m.d1 * o.y + m.d2 * o.z + m.d3 * o.w,
   m.d4 * o.x + m.d5 * o.y + m.d6 * o.z + m.d7 * o.w,
   m.d8 * o.x + m.d9 * o.y + m.d10 * o.z + m.d11 * o.w,
   m.d12 * o.x + m.d13 * o.y + m.d14 * o.z + m.d15 * o.w⟩

/-- Transformation::translation (transformation.rs). -/
def translation (x y z : ℝ) : M4 :=
  ⟨1,0,0,x, 0,1,0,y, 0,0,1,z, 0,0,0,1⟩

/-- Transformation::scaling (transformation.rs). -/
def scaling (x y z : ℝ) : M4 :=
  ⟨x,0,0,0, 0,y,0,0, 0,0,z,0, 0,0,0,1⟩

set_option maxHeartbeats 1600000 in
theorem identity_inverse : identity.inverse = identity := by
  ext <;> simp only [inverse, det, cofactor, det3, det2, identity] <;> norm_num

theorem identity_transpose : identity.transpose = identity := by
  ext <;> simp [transpose, identity]

@[simp] theorem identity_mulT (o : Tuple) : identity.mulT o = o := by
  ext <;> simp [mulT, identity]

theorem translation_det (a b c : ℝ) : (translation a b c).det = 1 := by
  simp [det, cofactor, det3, det2, translation]

theorem scaling_det (a b c : ℝ) : (scaling a b c).det = a * b * c := by
  simp [det, cofactor, det3, det2, scaling]; ring

set_option maxHeartbeats 1600000 in
theorem translation_inverse (a b c : ℝ) :
    (translation a b c).inverse = translation (-a) (-b) (-c) := by
  ext <;>
    simp only [inverse, det, cofactor, det3, det2, translation] <;>
    norm_num

set_option maxHeartbeats 1600000 in
theorem scaling_inverse (a b c : ℝ) (ha : a ≠ 0) (hb : b ≠ 0) (hc : c ≠ 0) :
    (scaling a b c).inverse = scaling a⁻¹ b⁻¹ c⁻¹ := by
  ext <;>
    simp only [inverse, det, cofactor, det3, det2, scaling] <;>
    field_simp <;> ring

@[simp] theorem translation_mulT (a b c : ℝ) (o : Tuple) :
    (translation a b c).mulT o = ⟨o.x + a * o.w, o.y + b * o.w, o.z + c * o.w, o.w⟩ := by
  ext <;> simp [mulT, translation]

@[simp] theorem scaling_mulT (a b c : ℝ) (o : Tuple) :
    (scaling a b c).mulT o = ⟨a * o.x, b * o.y, c * o.z, o.w⟩ := by
  ext <;> simp [mulT, scaling]

@[simp] theorem translation_transpose_mulT (a b c : ℝ) (o : Tuple) :
    (translation a b c).transpose.mulT o =
      ⟨o.x, o.y, o.z, a * o.x + b * o.y + c * o.z + o.w⟩ := by
  ext <;> simp [mulT, transpose, translation]

end M4

/-- Ray.  Modelled from the spec: `ray.rs` is absent from the snapshot
(only its callers survive).  Spec §3: "Ray: origin + direction"; §4.4:
"point = ray.position(t)" (origin advanced by t times the direction);
§4.3: a ray is moved between spaces by applying a matrix to both its
origin (a point) and its direction (a vector). -/
structure Ray where
  origin : Tuple
  direction : Tuple

/-- Ray::position.  Modelled from the spec (§4.4): origin + direction·t. -/
def Ray.position (r : Ray) (t : ℝ) : Tuple := r.origin + r.direction.smul t

/-- Ray::transform.  Modelled from the spec (§4.3): apply the matrix to
origin and direction. -/
def Ray.transform (r : Ray) (m : M4) : Ray := ⟨m.mulT r.origin, m.mulT r.direction⟩

/-- Material (material.rs).  The optional procedural pattern is opaque
here: no verified claim touches pattern sampling, and an `Option Unit`
shell preserves the structural-equality shape of the Rust struct (all
materials built below carry `none`, as does `Material::new()`). -/
structure Material where
  color : Tuple
  ambient : ℝ
  diffuse : ℝ
  specular : ℝ
  shininess : ℝ
  reflectivity : ℝ
  transparency : ℝ
  refractive_index : ℝ
  pattern : Option Unit

namespace Material

/-- Material::new (material.rs). -/
def new : Material :=
  ⟨Tuple.color 1 1 1, 0.1, 0.9, 0.9, 200, 0, 0, 1, none⟩

/-- Material::with_refractive_index (material.rs). -/
def with_refractive_index (m : Material) (ri : ℝ) : Material :=
  { m with refractive_index := ri }

/-- Material::with_transparency (material.rs). -/
def with_transparency (m : Material) (t : ℝ) : Material :=
  { m with transparency := t }

/-- Material::with_reflectivity (material.rs). -/
def with_reflectivity (m : Material) (r : ℝ) : Material :=
  { m with reflectivity := r }

/-- Material::with_ambient (material.rs). -/
def with_ambient (m : Material) (a : ℝ) : Material :=
  { m with ambient := a }

/-- Material::with_diffuse (material.rs). -/
def with_diffuse (m : Material) (d : ℝ) : Material :=
  { m with diffuse := d }

/-- Material::with_specular (material.rs). -/
def with_specular (m : Material) (s : ℝ) : Material :=
  { m with specular := s }

/-- Material::with_shininess (material.rs). -/
def with_shininess (m : Material) (s : ℝ) : Material :=
  { m with shininess := s }

/-- Material::with_color (material.rs). -/
def with_color (m : Material) (c : Tuple) : Material :=
  { m with color := c }

end Material

/-- Light (light.rs): a point light. -/
structure Light where
  position : Tuple
  intensity : Tuple

mutual

/-- Shape: the closed variant set dispatched by `Object`.  The variant
list (with `Group`, `Cylinder`, `Cone`) is the one `object.rs` matches
on; the `shape.rs` in the snapshot is a stale pre-group version, so the
variant list is modelled from the spec (§3) while each variant's
geometric payload comes from `shapes/*.rs` (cylinder and cone carry
`minimum`/`maximum`/`closed`; a group owns its child objects).  The
vestigial private fields of `shapes/sphere.rs` (origin, radius,
transform, material) are fixed by `Sphere::new()` and unread on the
`Object` paths, so they carry no information and are omitted. -/
inductive Shape where
| sphere : Shape
| plane : Shape
| cube : Shape
| cylinder (minimum maximum : ℝ) (closed : Bool) : Shape
| cone (minimum maximum : ℝ) (closed : Bool) : Shape
| group (children : List Object) : Shape
| test_shape : Shape

/-- Object (object.rs): shape + transform + material + optional parent.
The Rust `parent` is `Option<Arc<Object>>`; an `Arc` payload is an
immutable shared value, so it is embedded as the value itself. -/
inductive Object where
| mk (shape : Shape) (transform : M4) (material : Material) (parent : Option Object) : Object

end

/-- Field accessor for `Object.shape`. -/
def Object.shape : Object → Shape
| ⟨s, _, _, _⟩ => s

/-- Field accessor for `Object.transform` (also `Object::get_transform`). -/
def Object.transform : Object → M4
| ⟨_, t, _, _⟩ => t

/-- Field accessor for `Object.material` (also `Object::get_material`). -/
def Object.material : Object → Material
| ⟨_, _, m, _⟩ => m

/-- Field accessor for `Object.parent`. -/
def Object.parent : Object → Option Object
| ⟨_, _, _, p⟩ => p

/-- Object::new (object.rs): identity transform, default material, no
parent. -/
def Object.new (s : Shape) : Object := ⟨s, M4.identity, Material.new, none⟩

/-- Object::sphere (object.rs). -/
def Object.sphere : Object := Object.new Shape.sphere

/-- Object::plane (object.rs). -/
def Object.plane : Object := Object.new Shape.plane

/-- Object::cube (object.rs). -/
def Object.cube : Object := Object.new Shape.cube

/-- Object::group (object.rs): a fresh group has no children
(`Group::new`, shapes/group.rs). -/
def Object.group : Object := Object.new (Shape.group [])

/-- Object::test_shape (object.rs). -/
def Object.test_shape : Object := Object.new Shape.test_shape

/-- Object::set_transform (object.rs). -/
def Object.set_transform (o : Object) (t : M4) : Object :=
  ⟨o.shape, t, o.material, o.parent⟩

/-- Object::with_transform (object.rs): clone, then set. -/
def Object.with_transform (o : Object) (t : M4) : Object := o.set_transform t

/-- Object::set_material (object.rs). -/
def Object.set_material (o : Object) (m : Material) : Object :=
  ⟨o.shape, o.transform, m, o.parent⟩

/-- Object::with_material (object.rs): clone, then set. -/
def Object.with_material (o : Object) (m : Material) : Object := o.set_material m

/-- Object::add_child (object.rs): the parent is cloned *before* the
child is appended (`let parent_clone = Arc::new(self.clone())`), the
child's parent reference is rewritten to that clone, and a clone of the
updated child is pushed onto the group's child list.  On a non-group
receiver nothing happens.  Returns the updated `(self, child)` pair
standing for the two `&mut` arguments. -/
def Object.add_child (self child : Object) : Object × Object :=
  match self.shape with
  | .group cs =>
      let child' : Object := ⟨child.shape, child.transform, child.material, some self⟩
      (⟨Shape.group (cs ++ [child']), self.transform, self.material, self.parent⟩, child')
  | _ => (self, child)

/-- Zeroing of the homogeneous component, `world_normal.3 = 0.0`
(object.rs). -/
def Tuple.setW0 (a : Tuple) : Tuple := ⟨a.x, a.y, a.z, 0⟩

/-- Shape-specific local normal (shapes/*.rs `local_normal_at`).  The
group arm is unreachable in the source (groups are never asked for a
local normal); it returns the zero vector. -/
def Shape.local_normal_at : Shape → Tuple → Tuple
| .sphere, p => p - Tuple.point 0 0 0
| .plane, _ => Tuple.vector 0 1 0
| .cube, p =>
    let maxc := max (max |p.x| |p.y|) |p.z|
    if maxc = |p.x| then Tuple.vector p.x 0 0
    else if maxc = |p.y| then Tuple.vector 0 p.y 0
    else Tuple.vector 0 0 p.z
| .cylinder mn mx _, p =>
    let dist := p.x ^ 2 + p.z ^ 2
    if dist < 1 ∧ p.y ≥ mx - 1e-6 then Tuple.vector 0 1 0
    else if dist < 1 ∧ p.y ≤ mn + 1e-6 then Tuple.vector 0 (-1) 0
    else Tuple.vector p.x 0 p.z
| .cone mn mx _, p =>
    let dist := p.x ^ 2 + p.z ^ 2
    if dist < 1 ∧ p.y ≥ mx - 1e-6 then Tuple.vector 0 1 0
    else if dist < 1 ∧ p.y ≤ mn + 1e-6 then Tuple.vector 0 (-1) 0
    else
      let y0 := Real.sqrt (p.x ^ 2 + p.z ^ 2)
      Tuple.vector p.x (if p.y > 0 then -y0 else y0) p.z
| .group _, _ => Tuple.vector 0 0 0
| .test_shape, p => Tuple.vector p.x p.y p.z

/-- Object::normal_at (object.rs:58-64): applies only this object's own
inverse transform to the point, takes the shape local normal, applies
the inverse-transpose, zeroes w and normalizes.  The parent chain is
not consulted. -/
def Object.normal_at (o : Object) (world_point : Tuple) : Tuple :=
  let object_point := o.transform.inverse.mulT world_point
  let object_normal := o.shape.local_normal_at object_point
  ((o.transform.inverse.transpose.mulT object_normal).setW0).normalize

/-- Object::world_to_object (object.rs:94-101): the parent's conversion
is applied before this object's inverse transform. -/
def Object.world_to_object : Object → Tuple → Tuple
| ⟨_, tr, _, none⟩, p => tr.inverse.mulT p
| ⟨_, tr, _, some par⟩, p => tr.inverse.mulT (par.world_to_object p)

/-- Object::normal_to_world (object.rs:103-115): inverse-transpose, zero
w, normalize, then recurse into the parent. -/
def Object.normal_to_world : Object → Tuple → Tuple
| ⟨_, tr, _, none⟩, v => ((tr.inverse.transpose.mulT v).setW0).normalize
| ⟨_, tr, _, some par⟩, v =>
    par.normal_to_world (((tr.inverse.transpose.mulT v).setW0).normalize)

/-- Normal computation as the spec describes it.  Modelled from the
spec (§4.3): "convert world_point to object-local space by
`world_to_object` …, ask the shape for the local normal, convert back
with `normal_to_world`".  The two conversions are the source functions
above; only their composition into `normal_at` is the spec's words.
This definition exists to be compared against `Object.normal_at`. -/
def Object.normal_at_spec (o : Object) (world_point : Tuple) : Tuple :=
  o.normal_to_world (o.shape.local_normal_at (o.world_to_object world_point))

/-- Helper::glass_sphere (helper.rs), as an `Object`-era value: a unit
sphere with the glass material. -/
def glass_sphere : Object :=
  Object.sphere.with_material
    (((((((Material.new.with_color
      (Tuple.color 1 1 1)).with_ambient 0).with_diffuse 0.3).with_specular
        0.7).with_shininess 200).with_reflectivity 0.5).with_transparency 1
          |>.with_refractive_index 1.5)

/-- Intersection (intersection.rs): a (t, object) pair.  The Rust field
is a reference `&Object`; the derived `PartialEq` compares the
referenced values, which is what `=` on this structure does. -/
structure Intersection where
  t : ℝ
  obj : Object

/-- Stack-top refractive index (intersection.rs:36-40 and 50-54):
`1.0` when the container stack is empty, else the refractive index of
`containers.last()`. -/
def stack_refr (cs : List Object) : ℝ :=
  match cs.getLast? with
  | none => 1
  | some o => o.material.refractive_index

/-- Container toggle (intersection.rs:43-47): if the object is present
(structural equality, the derived `PartialEq`) remove every equal entry
(`retain(|x| x != i.object)`), else push a clone. -/
def toggle_container (cs : List Object) (o : Object) : List Object :=
  if o ∈ cs then cs.filter (fun x => decide (x ≠ o)) else cs ++ [o]

/-- Loop of intersection.rs:34-57: walk `xs`; at the intersection equal
to `self`, n1 is the stack top before the toggle and n2 the stack top
after it, and the loop breaks; if no element equals `self` the
initial values (1, 1) survive. -/
def n1n2_go (self : Intersection) : List Intersection → List Object → ℝ × ℝ
| [], _ => (1, 1)
| i :: rest, cs =>
    let cs' := toggle_container cs i.obj
    if i = self then (stack_refr cs, stack_refr cs') else n1n2_go self rest cs'

/-- Refractive-index bookkeeping of `prepare_computations`
(intersection.rs:30-57), starting from an empty container stack. -/
def Intersection.n1n2 (self : Intersection) (xs : List Intersection) : ℝ × ℝ :=
  n1n2_go self xs []

/-- Schlick reflectance block of `prepare_computations`
(intersection.rs:81-98), as a function of n1, n2 and
`cos = eyev.dot(normalv)`.  Note both arms shadow `cos` with
`cos.abs()` of the *incidence* cosine. -/
def schlick_value (n1 n2 cos : ℝ) : ℝ :=
  if n1 > n2 then
    let n := n1 / n2
    let sin2_t := n ^ 2 * (1 - cos ^ 2)
    if sin2_t > 1 then 1
    else
      let r0 := ((n1 - n2) / (n1 + n2)) ^ 2
      r0 + (1 - r0) * (1 - |cos|) ^ 5
  else
    let r0 := ((n1 - n2) / (n1 + n2)) ^ 2
    r0 + (1 - r0) * (1 - |cos|) ^ 5

/-- Schlick reflectance as the spec words it.  Modelled from the spec
(§4.4): "reflectance = r0+(1−r0)(1−cosθ)⁵ using the appropriate cosine
(cosθt when n1>n2, else cosθi), both taken as |cos|", with
cosθt = √(1 − sin²θt).  This definition exists only to be compared with
`schlick_value`. -/
def schlick_spec (n1 n2 cos : ℝ) : ℝ :=
  if n1 > n2 then
    let n := n1 / n2
    let sin2_t := n ^ 2 * (1 - cos ^ 2)
    if sin2_t > 1 then 1
    else
      let cos_t := Real.sqrt (1 - sin2_t)
      let r0 := ((n1 - n2) / (n1 + n2)) ^ 2
      r0 + (1 - r0) * (1 - |cos_t|) ^ 5
  else
    let r0 := ((n1 - n2) / (n1 + n2)) ^ 2
    r0 + (1 - r0) * (1 - |cos|) ^ 5

/-- Record (intersection.rs:3-16): the hit computation snapshot. -/
structure Record where
  t : ℝ
  obj : Object
  point : Tuple
  eyev : Tuple
  normalv : Tuple
  reflectv : Tuple
  inside : Bool
  over_point : Tuple
  under_point : Tuple
  n1 : ℝ
  n2 : ℝ
  schlick : ℝ

/-- Intersection::prepare_computations (intersection.rs:29-100). -/
def Intersection.prepare_computations (self : Intersection) (ray : Ray)
    (xs : List Intersection) : Record :=
  let nn := self.n1n2 xs
  let normalv0 := self.obj.normal_at (ray.position self.t)
  let eyev := -ray.direction
  let normalv := if normalv0.dot eyev < 0 then -normalv0 else normalv0
  let point := ray.position self.t
  { t := self.t
    obj := self.obj
    point := point
    eyev := eyev
    normalv := normalv
    reflectv := ray.direction.reflect normalv
    inside := decide (normalv0.dot eyev < 0)
    over_point := point + normalv.smul 0.0001
    under_point := point - normalv.smul 0.0001
    n1 := nn.1
    n2 := nn.2
    schlick := schlick_value nn.1 nn.2 (eyev.dot normalv) }

/-- Left fold of Rust's `Iterator::min_by` with comparator
`a.t.partial_cmp(&b.t).unwrap_or(Greater)`: the accumulator survives
ties, so the first of equally-minimal elements wins.  ℝ has no NaN, so
the `unwrap_or` arm is vacuous in this model. -/
def hit_fold : Intersection → List Intersection → Intersection
| acc, [] => acc
| acc, y :: ys => hit_fold (if acc.t ≤ y.t then acc else y) ys

/-- Filter step of Intersections::hit (intersections.rs:10):
`.filter(|i| i.t >= 0.0)`. -/
def nonneg_filter (xs : List Intersection) : List Intersection :=
  xs.filter (fun i => decide (0 ≤ i.t))

/-- Intersections::hit (intersections.rs:7-14): filter `t >= 0.0`, then
`min_by`, which yields `None` exactly on an empty (filtered) list. -/
def hit (xs : List Intersection) : Option Intersection :=
  match nonneg_filter xs with
  | [] => none
  | x :: rest => some (hit_fold x rest)

/-- Comparator of the `sort_by` calls (group.rs:21, world.rs:72):
ascending by t. -/
def interLE (a b : Intersection) : Prop := a.t ≤ b.t

instance : DecidableRel interLE := fun a b => inferInstanceAs (Decidable (a.t ≤ b.t))

/-- Rust's `sort_by` is a stable ascending sort by the comparator; it is
modelled by the stable `List.insertionSort` (stable sorts by a total
preorder agree extensionally). -/
def sortByT (xs : List Intersection) : List Intersection :=
  List.insertionSort interLE xs

/-- Sphere::local_intersect (shapes/sphere.rs:27-44), tagged with the
owning object as the dispatcher does for the object-parameterised
shapes. -/
def sphere_local_intersect (obj : Object) (ray : Ray) : List Intersection :=
  let sphere_to_ray := ray.origin - Tuple.point 0 0 0
  let a := ray.direction.dot ray.direction
  let b := 2 * ray.direction.dot sphere_to_ray
  let c := sphere_to_ray.dot sphere_to_ray - 1
  let discriminant := b ^ 2 - 4 * a * c
  if discriminant < 0 then []
  else
    [⟨(-b - Real.sqrt discriminant) / (2 * a), obj⟩,
     ⟨(-b + Real.sqrt discriminant) / (2 * a), obj⟩]

/-- Plane::local_intersect (shapes/plane.rs:21-28). -/
def plane_local_intersect (obj : Object) (ray : Ray) : List Intersection :=
  if |ray.direction.y| < 1e-5 then []
  else [⟨-ray.origin.y / ray.direction.y, obj⟩]

/-- Cylinder::check_cap (shapes/cylinder.rs:65-69): cap disk of radius
1. -/
def cylinder_check_cap (ray : Ray) (t : ℝ) : Prop :=
  (ray.origin.x + t * ray.direction.x) ^ 2 +
    (ray.origin.z + t * ray.direction.z) ^ 2 ≤ 1

/-- Cylinder::intersect_caps (shapes/cylinder.rs:71-88), as the list of
cap intersections it pushes. -/
def cylinder_intersect_caps (mn mx : ℝ) (closed : Bool) (obj : Object)
    (ray : Ray) : List Intersection :=
  if closed = false ∨ |ray.direction.y| < 1e-6 then []
  else
    (if cylinder_check_cap ray ((mn - ray.origin.y) / ray.direction.y) then
       [⟨(mn - ray.origin.y) / ray.direction.y, obj⟩] else []) ++
    (if cylinder_check_cap ray ((mx - ray.origin.y) / ray.direction.y) then
       [⟨(mx - ray.origin.y) / ray.direction.y, obj⟩] else [])

/-- Cylinder::local_intersect (shapes/cylinder.rs:22-50).  Note the
source's `return vec![]` on a negative discriminant exits before the
cap test. -/
def cylinder_local_intersect (mn mx : ℝ) (closed : Bool) (obj : Object)
    (ray : Ray) : List Intersection :=
  let a := ray.direction.x ^ 2 + ray.direction.z ^ 2
  if 1e-6 < |a| then
    let b := 2 * ray.origin.x * ray.direction.x + 2 * ray.origin.z * ray.direction.z
    let c := ray.origin.x ^ 2 + ray.origin.z ^ 2 - 1
    let discriminant := b ^ 2 - 4 * a * c
    if discriminant < 0 then []
    else
      let t0 := (-b - Real.sqrt discriminant) / (2 * a)
      let t1 := (-b + Real.sqrt discriminant) / (2 * a)
      let y0 := ray.origin.y + t0 * ray.direction.y
      let y1 := ray.origin.y + t1 * ray.direction.y
      ((if mn < y0 ∧ y0 < mx then [(⟨t0, obj⟩ : Intersection)] else []) ++
       (if mn < y1 ∧ y1 < mx then [(⟨t1, obj⟩ : Intersection)] else [])) ++
      cylinder_intersect_caps mn mx closed obj ray
  else cylinder_intersect_caps mn mx closed obj ray

/-- Cone::check_cap (shapes/cone.rs:72-76): compares the squared
distance from the y axis against `r.abs()` — the *unsquared* cap
radius. -/
def cone_check_cap (ray : Ray) (t r : ℝ) : Prop :=
  (ray.origin.x + t * ray.direction.x) ^ 2 +
    (ray.origin.z + t * ray.direction.z) ^ 2 ≤ |r|

/-- Cone::intersect_caps (shapes/cone.rs:78-92), as the list of cap
intersections it pushes: nothing unless `closed` and the ray's
y-direction is at least the 1e-6 tolerance; then the min cap with
radius argument `minimum` and the max cap with radius argument
`maximum`. -/
def cone_intersect_caps (mn mx : ℝ) (closed : Bool) (obj : Object)
    (ray : Ray) : List Intersection :=
  if closed = false ∨ |ray.direction.y| < 1e-6 then []
  else
    (if cone_check_cap ray ((mn - ray.origin.y) / ray.direction.y) mn then
       [⟨(mn - ray.origin.y) / ray.direction.y, obj⟩] else []) ++
    (if cone_check_cap ray ((mx - ray.origin.y) / ray.direction.y) mx then
       [⟨(mx - ray.origin.y) / ray.direction.y, obj⟩] else [])

/-- Cone::local_intersect (shapes/cone.rs:20-55).  The `return xs` on a
negative discriminant exits before the cap test, as in the source. -/
def cone_local_intersect (mn mx : ℝ) (closed : Bool) (obj : Object)
    (ray : Ray) : List Intersection :=
  let a := ray.direction.x ^ 2 - ray.direction.y ^ 2 + ray.direction.z ^ 2
  let b := 2 * ray.origin.x * ray.direction.x - 2 * ray.origin.y * ray.direction.y +
    2 * ray.origin.z * ray.direction.z
  let c := ray.origin.x ^ 2 - ray.origin.y ^ 2 + ray.origin.z ^ 2
  if |a| < 1e-6 ∧ 1e-6 < |b| then
    [(⟨-c / (2 * b), obj⟩ : Intersection)] ++ cone_intersect_caps mn mx closed obj ray
  else if 1e-6 ≤ |a| then
    let disc := b ^ 2 - 4 * a * c
    if disc < 0 then []
    else
      let t0 := (-b - Real.sqrt disc) / (2 * a)
      let t1 := (-b + Real.sqrt disc) / (2 * a)
      let p := if t0 > t1 then (t1, t0) else (t0, t1)
      let y0 := ray.origin.y + p.1 * ray.direction.y
      let y1 := ray.origin.y + p.2 * ray.direction.y
      ((if mn < y0 ∧ y0 < mx then [(⟨p.1, obj⟩ : Intersection)] else []) ++
       (if mn < y1 ∧ y1 < mx then [(⟨p.2, obj⟩ : Intersection)] else [])) ++
      cone_intersect_caps mn mx closed obj ray
  else cone_intersect_caps mn mx closed obj ray

/-- Cube::check_axis (shapes/cube.rs:73-88).  Parameters live in
`EReal` so that the `numerator * f64::INFINITY` products of the
near-parallel arm are represented exactly; EReal and IEEE agree on
these products whenever the numerator is nonzero (a zero numerator —
origin exactly on a slab plane with a parallel direction — would be
IEEE NaN but EReal 0; no claim exercises that input). -/
def cube_check_axis (origin direction : ℝ) : EReal × EReal :=
  let tmin_numerator := (-1 : ℝ) - origin
  let tmax_numerator := (1 : ℝ) - origin
  let p : EReal × EReal :=
    if 1e-6 ≤ |direction| then
      (((tmin_numerator / direction : ℝ) : EReal),
       ((tmax_numerator / direction : ℝ) : EReal))
    else
      (((tmin_numerator : ℝ) : EReal) * ⊤, ((tmax_numerator : ℝ) : EReal) * ⊤)
  if p.1 > p.2 then (p.2, p.1) else (p.1, p.2)

/-- Cube::local_intersect (shapes/cube.rs:15-31), as the list of
parameter values it returns (both tagged with the owning cube). -/
def cube_local_intersect_t (ray : Ray) : List EReal :=
  let xt := cube_check_axis ray.origin.x ray.direction.x
  let yt := cube_check_axis ray.origin.y ray.direction.y
  let zt := cube_check_axis ray.origin.z ray.direction.z
  let tmin := max (max xt.1 yt.1) zt.1
  let tmax := min (min xt.2 yt.2) zt.2
  if tmin > tmax then [] else [tmin, tmax]

mutual

/-- Object::intersect (object.rs:54-56): transform the incoming ray by
the inverse of the object's transform and dispatch on the shape. -/
def Object.intersect : Object → Ray → List Intersection
| ⟨s, tr, m, par⟩, ray =>
    Shape.local_intersect_d s ⟨s, tr, m, par⟩ (ray.transform tr.inverse)

/-- The `Shape::local_intersect` dispatcher absent from the snapshot;
modelled from the spec (§9: a tagged union "dispatched via pattern
matching in `local_intersect`"), each arm being the corresponding
`shapes/*.rs` routine tagged with the owning object.  The cube arm maps
its EReal parameters into ℝ with `EReal.toReal` (exact for every finite
parameter; an infinite parameter, possible only for degenerate
directions, becomes the junk value 0 — outside every claim here). -/
def Shape.local_intersect_d : Shape → Object → Ray → List Intersection
| .sphere, obj, ray => sphere_local_intersect obj ray
| .plane, obj, ray => plane_local_intersect obj ray
| .cube, obj, ray => (cube_local_intersect_t ray).map (fun t => ⟨t.toReal, obj⟩)
| .cylinder mn mx cl, obj, ray => cylinder_local_intersect mn mx cl obj ray
| .cone mn mx cl, obj, ray => cone_local_intersect mn mx cl obj ray
| .group children, _, ray => sortByT (intersect_children children ray)
| .test_shape, _, _ => []

/-- Loop body of Group::local_intersect (shapes/group.rs:15-23): each
child is intersected with the already-group-local ray (applying its own
transform inside `Object::intersect`) and the results are concatenated
in child order; the caller then sorts. -/
def intersect_children : List Object → Ray → List Intersection
| [], _ => []
| c :: cs, ray => c.intersect ray ++ intersect_children cs ray

end

/-- World (world.rs:12-15).  The snapshot's `world.rs` predates the
`Object` refactor and stores the stale shape-era type; its logic reads
exactly the transform/material/shape data `Object` carries, so objects
are embedded as `Object`. -/
structure World where
  objects : List Object
  lights : List Light

/-- World::intersect (world.rs:66-74): concatenate all objects'
intersections, then sort ascending by t. -/
def World.intersect (w : World) (ray : Ray) : List Intersection :=
  sortByT (intersect_children w.objects ray)

/-- World::is_shadowed (world.rs:118-130).  The source unconditionally
indexes `self.lights[0]`; on an empty light list that indexing panics,
modelled here as `none`. -/
def World.is_shadowed (w : World) (point : Tuple) : Option Bool :=
  match w.lights.head? with
  | none => none
  | some l =>
      let v := l.position - point
      let distance := v.magnitude
      let direction := v.normalize
      let r : Ray := ⟨point, direction⟩
      let xs := w.intersect r
      some (match hit xs with
            | some h => decide (h.t < distance)
            | none => false)

/-- The hit record built inside World::color_at (world.rs:107-116): on a
hit, `hit.prepare_computations(ray, &vec![])` — the intersection list
handed over is the empty vector, not the list `self.intersect(ray)`
the hit was selected from. -/
def World.color_at_record (w : World) (ray : Ray) : Option Record :=
  match hit (w.intersect ray) with
  | some h => some (h.prepare_computations ray [])
  | none => none

/-- Intersection tagged with the identity of the referenced object (the
address behind the `&Object`), used to compare the source's structural
container bookkeeping with identity-based bookkeeping. -/
structure IdInter where
  oid : ℕ
  t : ℝ
  obj : Object

/-- Stack-top refractive index over an id-tagged container stack. -/
def stack_refr_id (cs : List (ℕ × Object)) : ℝ :=
  match cs.getLast? with
  | none => 1
  | some p => p.2.material.refractive_index

/-- The code's bookkeeping run on id-tagged input: identities are
invisible to the source (`containers: Vec<Object>` stores cloned values
and `contains`/`retain`/`==` use the derived structural equality), so
the ids are erased and `Intersection.n1n2` runs on the values. -/
def n1n2_code (self : IdInter) (xs : List IdInter) : ℝ × ℝ :=
  Intersection.n1n2 ⟨self.t, self.obj⟩ (xs.map (fun i => ⟨i.t, i.obj⟩))

/-- Identity-based bookkeeping: the same loop, except that container
membership, removal and the self test compare object identities.  This
is the comparison semantics named by the claim, not a source
function. -/
def n1n2_go_id (self : IdInter) : List IdInter → List (ℕ × Object) → ℝ × ℝ
| [], _ => (1, 1)
| i :: rest, cs =>
    let cs' := if i.oid ∈ cs.map Prod.fst then cs.filter (fun x => decide (x.1 ≠ i.oid))
               else cs ++ [(i.oid, i.obj)]
    if i.t = self.t ∧ i.oid = self.oid then (stack_refr_id cs, stack_refr_id cs')
    else n1n2_go_id self rest cs'

/-- Identity-based bookkeeping from an empty stack. -/
def n1n2_ident (self : IdInter) (xs : List IdInter) : ℝ × ℝ :=
  n1n2_go_id self xs []

/-! Concrete scenes used by several claims. -/

/-- The axis ray of the repository's refraction tests: origin (0,0,−5),
direction (0,0,1). -/
def ray_z : Ray := ⟨Tuple.point 0 0 (-5), Tuple.vector 0 0 1⟩

/-- A world holding a single glass sphere and one light. -/
def glass_world : World :=
  ⟨[glass_sphere], [⟨Tuple.point (-10) 10 (-10), Tuple.color 1 1 1⟩]⟩

/-- Group object of the spec's group test: two unit spheres, one of them
translated −3 on z, and a third sphere translated out of the ray's
path. -/
def c6_s1 : Object := Object.sphere

/-- The sphere translated −3 on z. -/
def c6_s2 : Object := Object.sphere.with_transform (M4.translation 0 0 (-3))

/-- The sphere translated +5 on x (missed by the ray). -/
def c6_s3 : Object := Object.sphere.with_transform (M4.translation 5 0 0)

/-- The untransformed group holding the three spheres. -/
def c6_group : Object :=
  ⟨Shape.group [c6_s1, c6_s2, c6_s3], M4.identity, Material.new, none⟩

/-- The group test's ray. -/
def c6_ray : Ray := ⟨Tuple.point 0 0 (-5), Tuple.vector 0 0 1⟩

/-- A group translated (0,8,0). -/
def g2_group : Object := Object.group.with_transform (M4.translation 0 8 0)

/-- A test shape freshly attached to `g2_group`. -/
def c2_child : Object := (g2_group.add_child Object.test_shape).2

/-- A group with transform translation(1,0,0), to be mutated after a
child is attached. -/
def c4_group0 : Object := Object.group.with_transform (M4.translation 1 0 0)

/-- State of group and child after `add_child`. -/
def c4_pair : Object × Object := c4_group0.add_child Object.sphere

/-- The attached child. -/
def c4_child : Object := c4_pair.2

/-- The ray of the cone-cap scenario: origin (3,10,0), direction
(0,−1,0) — straight down through x = 3. -/
def c8_ray : Ray := ⟨Tuple.point 3 10 0, Tuple.vector 0 (-1) 0⟩

/-- Tag object for cone intersections (as in the repository's cone
tests). -/
def c8_obj : Object := Object.test_shape

/-- Id-tagged intersections with two *distinct* (ids 0 and 1) but
structurally equal glass spheres, entered at t = 1 and t = 2. -/
def c9_xs : List IdInter := [⟨0, 1, glass_sphere⟩, ⟨1, 2, glass_sphere⟩]

/-- The hit under scrutiny: entering the second glass sphere. -/
def c9_self : IdInter := ⟨1, 2, glass_sphere⟩

/-! Helper lemmas. -/

theorem sqrt_four : Real.sqrt 4 = 2 := by
  rw [show (4:ℝ) = 2^2 by norm_num, Real.sqrt_sq]; norm_num

theorem sqrt_25 : Real.sqrt 25 = 5 := by
  rw [show (25:ℝ) = 5^2 by norm_num, Real.sqrt_sq]; norm_num

theorem sqrt_36 : Real.sqrt 36 = 6 := by
  rw [show (36:ℝ) = 6^2 by norm_num, Real.sqrt_sq]; norm_num

theorem sqrt_9_25 : Real.sqrt (9/25) = 3/5 := by
  rw [show (9/25:ℝ) = (3/5)^2 by norm_num, Real.sqrt_sq]; norm_num

/-- The `min_by` fold returns the first element of minimal t: the input
splits around the result, with strictly larger t before it and no
smaller t after it. -/
theorem hit_fold_spec (ys : List Intersection) :
    ∀ acc : Intersection, ∃ l1 l2,
      acc :: ys = l1 ++ (hit_fold acc ys) :: l2 ∧
      (∀ j ∈ l1, (hit_fold acc ys).t < j.t) ∧
      (∀ j ∈ l2, (hit_fold acc ys).t ≤ j.t) := by
  induction ys with
  | nil =>
      intro acc
      exact ⟨[], [], by simp [hit_fold], by simp, by simp⟩
  | cons y ys ih =>
      intro acc
      rw [hit_fold]
      by_cases h : acc.t ≤ y.t
      · rw [if_pos h]
        obtain ⟨l1, l2, hst, hlt, hle⟩ := ih acc
        cases l1 with
        | nil =>
            simp only [List.nil_append, List.cons.injEq] at hst
            obtain ⟨heq, rfl⟩ := hst
            refine ⟨[], y :: ys, by simp [← heq], by simp, ?_⟩
            intro j hj
            rcases List.mem_cons.mp hj with rfl | hj
            · rw [← heq]; exact h
            · exact hle _ hj
        | cons a l1' =>
            simp only [List.cons_append, List.cons.injEq] at hst
            obtain ⟨rfl, hst2⟩ := hst
            have hracc : (hit_fold acc ys).t < acc.t := hlt _ (List.mem_cons_self _ _)
            refine ⟨acc :: y :: l1', l2, ?_, ?_, hle⟩
            · simp only [List.cons_append]
              exact congrArg (fun l => acc :: y :: l) hst2
            · intro j hj
              rcases List.mem_cons.mp hj with rfl | hj
              · exact hracc
              · rcases List.mem_cons.mp hj with rfl | hj
                · exact lt_of_lt_of_le hracc h
                · exact hlt _ (List.mem_cons_of_mem _ hj)
      · rw [if_neg h]
        push_neg at h
        obtain ⟨l1, l2, hst, hlt, hle⟩ := ih y
        have hry : (hit_fold y ys).t ≤ y.t := by
          have hy : y ∈ y :: ys := List.mem_cons_self _ _
          rw [hst] at hy
          rcases List.mem_append.mp hy with hm | hm
          · exact le_of_lt (hlt _ hm)
          · rcases List.mem_cons.mp hm with heq | hm
            · rw [← heq]
            · exact hle _ hm
        refine ⟨acc :: l1, l2, ?_, ?_, hle⟩
        · simp only [List.cons_append]
          rw [← hst]
        · intro j hj
          rcases List.mem_cons.mp hj with rfl | hj
          · exact lt_of_le_of_lt hry h
          · exact hlt _ hj

/-- A successful hit splits the nonnegative filtrate around the result:
strictly larger t before it, no smaller t after it. -/
theorem hit_some_spec (xs : List Intersection) (i : Intersection) (h : hit xs = some i) :
    ∃ l1 l2, nonneg_filter xs = l1 ++ i :: l2 ∧
      (∀ j ∈ l1, i.t < j.t) ∧ (∀ j ∈ l2, i.t ≤ j.t) := by
  rw [hit] at h
  cases hf : nonneg_filter xs with
  | nil => rw [hf] at h; cases h
  | cons x rest =>
      rw [hf] at h
      injection h with h
      obtain ⟨l1, l2, hst, hlt, hle⟩ := hit_fold_spec rest x
      rw [h] at hst hlt hle
      exact ⟨l1, l2, hst, hlt, hle⟩

/-- Membership in the nonnegative filtrate. -/
theorem mem_nonneg_filter (xs : List Intersection) (i : Intersection) :
    i ∈ nonneg_filter xs ↔ i ∈ xs ∧ 0 ≤ i.t := by
  rw [nonneg_filter, List.mem_filter]
  simp

/-- No hit exactly when every parameter is negative. -/
theorem hit_none_iff (xs : List Intersection) :
    hit xs = none ↔ ∀ i ∈ xs, i.t < 0 := by
  rw [hit]
  cases hf : nonneg_filter xs with
  | cons x rest =>
      simp only [reduceCtorEq, false_iff, not_forall]
      have hx : x ∈ nonneg_filter xs := by rw [hf]; exact List.mem_cons_self _ _
      have hm := (mem_nonneg_filter xs x).mp hx
      exact ⟨x, hm.1, by simp [not_lt.mpr hm.2]⟩
  | nil =>
      simp only [true_iff]
      intro i hi
      by_contra hneg
      push_neg at hneg
      have : i ∈ nonneg_filter xs := (mem_nonneg_filter xs i).mpr ⟨hi, hneg⟩
      rw [hf] at this
      cases this

/-- A hit is a nonnegative member of the list of minimal parameter. -/
theorem hit_min (xs : List Intersection) (i : Intersection) (h : hit xs = some i) :
    i ∈ xs ∧ 0 ≤ i.t ∧ ∀ j ∈ xs, 0 ≤ j.t → i.t ≤ j.t := by
  obtain ⟨l1, l2, hst, hlt, hle⟩ := hit_some_spec xs i h
  have hmem : i ∈ nonneg_filter xs := by
    rw [hst]; exact List.mem_append.mpr (Or.inr (List.mem_cons_self _ _))
  have hi := (mem_nonneg_filter xs i).mp hmem
  refine ⟨hi.1, hi.2, ?_⟩
  intro j hj hj0
  have : j ∈ nonneg_filter xs := (mem_nonneg_filter xs j).mpr ⟨hj, hj0⟩
  rw [hst] at this
  rcases List.mem_append.mp this with hm | hm
  · exact le_of_lt (hlt _ hm)
  · rcases List.mem_cons.mp hm with heq | hm
    · rw [heq]
    · exact hle _ hm

instance : IsTotal Intersection interLE := ⟨fun a b => le_total a.t b.t⟩

instance : IsTrans Intersection interLE := ⟨fun _ _ _ h1 h2 => le_trans h1 h2⟩

/-- The sort used by groups and the world produces an ascending list. -/
theorem sortByT_sorted (xs : List Intersection) : List.Sorted interLE (sortByT xs) :=
  List.sorted_insertionSort interLE xs

/-- The sort is a permutation: nothing is added or dropped. -/
theorem sortByT_perm (xs : List Intersection) : (sortByT xs).Perm xs :=
  List.perm_insertionSort interLE xs

/-- Unfolding of a group object's intersection. -/
theorem group_intersect_eq (children : List Object) (tr : M4) (m : Material)
    (par : Option Object) (ray : Ray) :
    (Object.mk (Shape.group children) tr m par).intersect ray
      = sortByT (intersect_children children (ray.transform tr.inverse)) := by
  rw [Object.intersect, Shape.local_intersect_d]

/-- The glass sphere on the axis ray: entry at t = 4, exit at t = 6. -/
theorem glass_intersect :
    glass_sphere.intersect ray_z = [⟨4, glass_sphere⟩, ⟨6, glass_sphere⟩] := by
  show Object.intersect _ _ = _
  rw [glass_sphere]
  norm_num [Object.intersect, Shape.local_intersect_d, Object.sphere, Object.new,
    Object.with_material, Object.set_material, Object.shape, Object.transform,
    Object.material, Object.parent, ray_z,
    M4.identity_inverse, Ray.transform, M4.identity_mulT,
    sphere_local_intersect, Tuple.dot, Tuple.point, Tuple.vector, sqrt_four]

/-- The glass world's sorted intersection list on the axis ray. -/
theorem glass_world_intersect :
    glass_world.intersect ray_z = [⟨4, glass_sphere⟩, ⟨6, glass_sphere⟩] := by
  rw [World.intersect]
  rw [show glass_world.objects = [glass_sphere] from rfl]
  rw [intersect_children, intersect_children, glass_intersect]
  norm_num [sortByT, List.insertionSort, List.orderedInsert, interLE]

/-- Refractive index of the glass sphere. -/
theorem glass_refr : glass_sphere.material.refractive_index = 1.5 := rfl

/-- Containment bookkeeping over the *full* list: entering the glass
sphere at t = 4 gives n1 = 1 (air) and n2 = 1.5 (glass). -/
theorem n1n2_full :
    Intersection.n1n2 ⟨4, glass_sphere⟩ [⟨4, glass_sphere⟩, ⟨6, glass_sphere⟩]
      = (1, 1.5) := by
  rw [Intersection.n1n2, n1n2_go]
  rw [if_pos rfl]
  simp [toggle_container, stack_refr, glass_refr]

/-- Intersecting the glass world and passing the *empty* list, as
`color_at` does, leaves both indices at 1. -/
theorem c1_general (w : World) (ray : Ray) (r : Record)
    (h : w.color_at_record ray = some r) : r.n1 = 1 ∧ r.n2 = 1 := by
  rw [World.color_at_record] at h
  cases hh : hit (w.intersect ray) with
  | none => rw [hh] at h; cases h
  | some hi =>
      rw [hh] at h
      injection h with h
      rw [← h]
      constructor <;>
        simp [Intersection.prepare_computations, Intersection.n1n2, n1n2_go]

/-- The attached test shape: parent snapshot of the translated group. -/
theorem c2_child_eq :
    c2_child = ⟨Shape.test_shape, M4.identity, Material.new, some g2_group⟩ := rfl

/-- What normal_at computes on the attached test shape at (3,4,0): the
parentless normalization of (3,4,0). -/
theorem c2_normal_at_eval :
    c2_child.normal_at (Tuple.point 3 4 0) = Tuple.vector (3/5) (4/5) 0 := by
  rw [c2_child_eq, Object.normal_at]
  simp only [Object.transform, Object.shape, M4.identity_inverse, M4.identity_transpose,
    M4.identity_mulT, Shape.local_normal_at]
  rw [Tuple.setW0, Tuple.normalize, Tuple.magnitude]
  norm_num [Tuple.point, Tuple.vector, sqrt_25]

/-- What the spec's conversion chain computes on the same input: the
ancestor translation is applied first, so the local point is (3,−4,0)
and the world normal (3/5,−4/5,0). -/
theorem c2_normal_at_spec_eval :
    c2_child.normal_at_spec (Tuple.point 3 4 0) = Tuple.vector (3/5) (-4/5) 0 := by
  rw [c2_child_eq, Object.normal_at_spec]
  rw [show (⟨Shape.test_shape, M4.identity, Material.new, some g2_group⟩ : Object).world_to_object
        (Tuple.point 3 4 0) = Tuple.point 3 (-4) 0 by
    rw [Object.world_to_object]
    rw [show g2_group = ⟨Shape.group [], M4.translation 0 8 0, Material.new, none⟩ from rfl]
    rw [Object.world_to_object]
    simp [M4.identity_inverse, M4.translation_inverse, Tuple.point]
    norm_num]
  simp only [Object.shape]
  rw [show Shape.local_normal_at Shape.test_shape (Tuple.point 3 (-4) 0)
        = Tuple.vector 3 (-4) 0 from rfl]
  rw [Object.normal_to_world]
  rw [show g2_group = ⟨Shape.group [], M4.translation 0 8 0, Material.new, none⟩ from rfl]
  rw [Object.normal_to_world]
  simp only [M4.identity_inverse, M4.identity_transpose, M4.identity_mulT,
    M4.translation_inverse, M4.translation_transpose_mulT]
  simp only [Tuple.setW0, Tuple.normalize, Tuple.magnitude]
  norm_num [Tuple.vector, sqrt_25, Real.sqrt_one]

/-- The attached child of the C4 scenario. -/
theorem c4_child_eq :
    c4_child = ⟨Shape.sphere, M4.identity, Material.new, some c4_group0⟩ := rfl

/-- The attached child converts through the attach-time transform
translation(1,0,0). -/
theorem c4_w2o : c4_child.world_to_object (Tuple.point 0 0 0) = Tuple.point (-1) 0 0 := by
  rw [c4_child_eq, Object.world_to_object]
  rw [show c4_group0 = ⟨Shape.group [], M4.translation 1 0 0, Material.new, none⟩ from rfl]
  rw [Object.world_to_object]
  simp [M4.identity_inverse, M4.translation_inverse, Tuple.point]

/-- General snapshot semantics of add_child: the child's parent is the
attach-time group value, its conversions compose with the attach-time
chain, and a later transform change on the group leaves the stored
child (with its snapshot parent) untouched. -/
theorem c4_gen (g s : Object) (cs : List Object) (hg : g.shape = Shape.group cs) :
    ((g.add_child s).2).parent = some g ∧
    (∀ p, ((g.add_child s).2).world_to_object p
        = s.transform.inverse.mulT (g.world_to_object p)) ∧
    (∀ T, ((g.add_child s).1.set_transform T).shape
        = Shape.group (cs ++ [(g.add_child s).2])) := by
  rw [Object.add_child, hg]
  refine ⟨rfl, ?_, ?_⟩
  · intro p
    cases s with
    | mk ss st sm sp =>
        cases g with
        | mk gs gt gm gp =>
            simp only [Object.shape] at hg
            rw [Object.world_to_object]
  · intro T
    rfl

/-- The unit sphere of the group scene on the test ray. -/
theorem c6_s1_intersect : c6_s1.intersect c6_ray = [⟨4, c6_s1⟩, ⟨6, c6_s1⟩] := by
  show Object.intersect _ _ = _
  rw [show c6_s1 = ⟨Shape.sphere, M4.identity, Material.new, none⟩ from rfl]
  rw [Object.intersect, Shape.local_intersect_d]
  norm_num [M4.identity_inverse, Ray.transform, M4.identity_mulT, c6_ray,
    sphere_local_intersect, Tuple.dot, Tuple.point, Tuple.vector, sqrt_four, c6_s1]

/-- The translated sphere of the group scene: hits at t = 1 and 3. -/
theorem c6_s2_intersect : c6_s2.intersect c6_ray = [⟨1, c6_s2⟩, ⟨3, c6_s2⟩] := by
  show Object.intersect _ _ = _
  rw [show c6_s2 = ⟨Shape.sphere, M4.translation 0 0 (-3), Material.new, none⟩ from rfl]
  rw [Object.intersect, Shape.local_intersect_d]
  rw [M4.translation_inverse]
  norm_num [Ray.transform, c6_ray, sphere_local_intersect, Tuple.dot,
    Tuple.point, Tuple.vector, sqrt_four]

/-- The sideways sphere of the group scene is missed. -/
theorem c6_s3_intersect : c6_s3.intersect c6_ray = [] := by
  show Object.intersect _ _ = _
  rw [show c6_s3 = ⟨Shape.sphere, M4.translation 5 0 0, Material.new, none⟩ from rfl]
  rw [Object.intersect, Shape.local_intersect_d]
  rw [M4.translation_inverse]
  norm_num [Ray.transform, c6_ray, sphere_local_intersect, Tuple.dot,
    Tuple.point, Tuple.vector]

/-- Full group-scene evaluation: four intersections, sorted ascending,
the nearest two on the translated sphere. -/
theorem c6_concrete :
    c6_group.intersect c6_ray = [⟨1, c6_s2⟩, ⟨3, c6_s2⟩, ⟨4, c6_s1⟩, ⟨6, c6_s1⟩] := by
  rw [show c6_group
        = ⟨Shape.group [c6_s1, c6_s2, c6_s3], M4.identity, Material.new, none⟩ from rfl]
  rw [group_intersect_eq]
  rw [M4.identity_inverse]
  rw [show c6_ray.transform M4.identity = c6_ray by
    rw [Ray.transform]; simp [M4.identity_mulT]]
  rw [intersect_children, intersect_children, intersect_children, intersect_children]
  rw [c6_s1_intersect, c6_s2_intersect, c6_s3_intersect]
  norm_num [sortByT, List.insertionSort, List.orderedInsert, interLE]

/-- Cap contributions of the C8 cone scene: only the t = 110 crossing of
the distant min cap is kept (the t = 6 crossing of the max cap fails
the `x² + z² ≤ |4|` test). -/
theorem c8_caps_eval (obj : Object) :
    cone_intersect_caps (-100) 4 true obj ⟨⟨3,10,0,1⟩,⟨0,-1,0,0⟩⟩ = [⟨110, obj⟩] := by
  simp only [cone_intersect_caps]
  rw [if_neg (by norm_num)]
  rw [if_pos (show cone_check_cap ⟨⟨3,10,0,1⟩,⟨0,-1,0,0⟩⟩ ((-100 - 10) / -1) (-100) by
    simp only [cone_check_cap]; norm_num)]
  rw [if_neg (show ¬ cone_check_cap ⟨⟨3,10,0,1⟩,⟨0,-1,0,0⟩⟩ ((4 - 10) / -1) 4 by
    simp only [cone_check_cap]; norm_num)]
  norm_num

/-- Full evaluation of the cone scene: lateral hits at 7 and 13, cap
hit at 110. -/
theorem c8_result (obj : Object) :
    (cone_local_intersect (-100) 4 true obj c8_ray).map Intersection.t = [7, 13, 110] := by
  simp only [cone_local_intersect, c8_ray, Tuple.point, Tuple.vector]
  rw [if_neg (by norm_num)]
  rw [if_pos (by norm_num)]
  rw [if_neg (by
    rw [show ((2 * 3 * 0 - 2 * 10 * (-1) + 2 * 0 * 0) ^ 2 -
        4 * (0 ^ 2 - (-1) ^ 2 + 0 ^ 2) * (3 ^ 2 - 10 ^ 2 + 0 ^ 2) : ℝ) = 36 by norm_num]
    norm_num)]
  have e36 : ((2 * 3 * 0 - 2 * 10 * (-1) + 2 * 0 * 0) ^ 2 -
      4 * (0 ^ 2 - (-1) ^ 2 + 0 ^ 2) * (3 ^ 2 - 10 ^ 2 + 0 ^ 2) : ℝ) = 36 := by norm_num
  rw [e36, sqrt_36]
  rw [show (-(2 * 3 * 0 - 2 * 10 * (-1) + 2 * 0 * 0) - 6) /
      (2 * (0 ^ 2 - (-1) ^ 2 + 0 ^ 2)) = (13:ℝ) by norm_num]
  rw [show (-(2 * 3 * 0 - 2 * 10 * (-1) + 2 * 0 * 0) + 6) /
      (2 * (0 ^ 2 - (-1) ^ 2 + 0 ^ 2)) = (7:ℝ) by norm_num]
  rw [if_pos (show (13:ℝ) > 7 by norm_num)]
  rw [c8_caps_eval]
  norm_num

/-- Caps are counted iff the cone is closed, the direction is not
cap-parallel, and the crossing passes the `≤ |radius|` test of
`check_cap`. -/
theorem c8_caps_gen (mn mx : ℝ) (closed : Bool) (obj : Object) (ray : Ray) (i : Intersection) :
    i ∈ cone_intersect_caps mn mx closed obj ray ↔
      (closed = true ∧ 1e-6 ≤ |ray.direction.y| ∧
        ((i = ⟨(mn - ray.origin.y) / ray.direction.y, obj⟩ ∧
          (ray.origin.x + ((mn - ray.origin.y) / ray.direction.y) * ray.direction.x) ^ 2 +
            (ray.origin.z + ((mn - ray.origin.y) / ray.direction.y) * ray.direction.z) ^ 2 ≤ |mn|) ∨
         (i = ⟨(mx - ray.origin.y) / ray.direction.y, obj⟩ ∧
          (ray.origin.x + ((mx - ray.origin.y) / ray.direction.y) * ray.direction.x) ^ 2 +
            (ray.origin.z + ((mx - ray.origin.y) / ray.direction.y) * ray.direction.z) ^ 2 ≤ |mx|))) := by
  rw [cone_intersect_caps]
  by_cases hc : closed = false ∨ |ray.direction.y| < 1e-6
  · rw [if_pos hc]
    simp only [List.not_mem_nil, false_iff]
    intro hcontra
    obtain ⟨hcl, hy, _⟩ := hcontra
    rcases hc with hc | hc
    · rw [hcl] at hc; cases hc
    · exact absurd hc (not_lt.mpr hy)
  · rw [if_neg hc]
    push_neg at hc
    have hcl : closed = true := by
      cases closed
      · exact absurd rfl hc.1
      · rfl
    have hy : 1e-6 ≤ |ray.direction.y| := hc.2
    simp only [List.mem_append, cone_check_cap]
    constructor
    · intro hm
      refine ⟨hcl, hy, ?_⟩
      rcases hm with hm | hm
      · by_cases hq : (ray.origin.x + ((mn - ray.origin.y) / ray.direction.y) * ray.direction.x) ^ 2 +
            (ray.origin.z + ((mn - ray.origin.y) / ray.direction.y) * ray.direction.z) ^ 2 ≤ |mn|
        · rw [if_pos hq] at hm
          simp at hm
          exact Or.inl ⟨by rw [hm], hq⟩
        · rw [if_neg hq] at hm
          cases hm
      · by_cases hq : (ray.origin.x + ((mx - ray.origin.y) / ray.direction.y) * ray.direction.x) ^ 2 +
            (ray.origin.z + ((mx - ray.origin.y) / ray.direction.y) * ray.direction.z) ^ 2 ≤ |mx|
        · rw [if_pos hq] at hm
          simp at hm
          exact Or.inr ⟨by rw [hm], hq⟩
        · rw [if_neg hq] at hm
          cases hm
    · intro hgiven
      obtain ⟨_, _, hm⟩ := hgiven
      rcases hm with ⟨rfl, hq⟩ | ⟨rfl, hq⟩
      · exact Or.inl (by rw [if_pos hq]; exact List.mem_singleton_self _)
      · exact Or.inr (by rw [if_pos hq]; exact List.mem_singleton_self _)

/-- The code's bookkeeping on the two structurally equal spheres:
entering the second *removes* the first, so n2 falls back to 1. -/
theorem c9_code_eval : n1n2_code c9_self c9_xs = (1.5, 1) := by
  rw [n1n2_code, Intersection.n1n2]
  rw [show c9_xs.map (fun i => (⟨i.t, i.obj⟩ : Intersection))
        = [⟨1, glass_sphere⟩, ⟨2, glass_sphere⟩] from rfl]
  rw [n1n2_go]
  rw [if_neg (by simp [c9_self])]
  rw [n1n2_go]
  rw [if_pos (by simp [c9_self])]
  have h1 : toggle_container [] (⟨1, glass_sphere⟩ : Intersection).obj = [glass_sphere] := by
    simp [toggle_container]
  have h2 : toggle_container [glass_sphere] (⟨2, glass_sphere⟩ : Intersection).obj = [] := by
    simp [toggle_container, List.filter]
  rw [h1, h2]
  rw [show stack_refr [glass_sphere] = 1.5 from rfl, show stack_refr [] = 1 from rfl]

/-- Identity-based bookkeeping on the same input nests instead: n2 is
the inner sphere's 1.5. -/
theorem c9_ident_eval : n1n2_ident c9_self c9_xs = (1.5, 1.5) := by
  rw [n1n2_ident, c9_xs, n1n2_go_id]
  rw [if_neg (by simp [c9_self])]
  rw [n1n2_go_id]
  rw [if_pos (by simp [c9_self])]
  norm_num [stack_refr_id, glass_refr]

/-- A sphere queried with a zero-direction ray always returns a
two-element list: a = b = 0 make the discriminant exactly 0, so the
`discriminant < 0` early return is not taken. -/
theorem c7_sphere_gen (obj : Object) (origin : Tuple) :
    (sphere_local_intersect obj ⟨origin, Tuple.vector 0 0 0⟩).length = 2 := by
  simp only [sphere_local_intersect, Tuple.vector, Tuple.dot]
  rw [if_neg (by norm_num)]
  rfl

/-- The cube's slab test on the origin-based zero-direction ray: every
axis contributes the degenerate slab (−∞, +∞), so the result is the
two-element list [−∞, +∞]. -/
theorem c7_cube_eval :
    cube_local_intersect_t ⟨Tuple.point 0 0 0, Tuple.vector 0 0 0⟩ = [⊥, ⊤] := by
  have hneg : ((-1 : ℝ) : EReal) * ⊤ = ⊥ := by
    apply EReal.mul_top_of_neg
    exact_mod_cast (by norm_num : (-1:ℝ) < 0)
  have hpos : ((1 : ℝ) : EReal) * ⊤ = ⊤ := by
    apply EReal.mul_top_of_pos
    exact_mod_cast (by norm_num : (0:ℝ) < 1)
  have hca : cube_check_axis 0 0 = (⊥, ⊤) := by
    simp only [cube_check_axis]
    rw [if_neg (by norm_num)]
    rw [show ((-1:ℝ) - 0) = (-1:ℝ) by norm_num, show ((1:ℝ) - 0) = (1:ℝ) by norm_num]
    rw [hneg, hpos]
    rw [if_neg (by norm_num)]
  simp only [cube_local_intersect_t, Tuple.point, Tuple.vector, hca]
  rw [if_neg (by simp)]
  simp

/-! Claim theorems. -/

/-- C1 (code_bug): `World::color_at` builds the hit record by calling
`prepare_computations(ray, &vec![])` — the empty list — so the record's
n1 and n2 are always the initial 1.0, never the containment-stack
values.  First conjunct: every record produced inside `color_at` has
n1 = n2 = 1, for every world and ray.  Remaining conjuncts exhibit the
divergence on a glass-sphere world: the hit is the entry point t = 4,
and running the same bookkeeping over the full intersection list (what
the claim says `color_at` does) yields n1 = 1, n2 = 1.5. -/
theorem claim1_color_at_empty_xs :
    (∀ (w : World) (ray : Ray) (r : Record),
        w.color_at_record ray = some r → r.n1 = 1 ∧ r.n2 = 1) ∧
    hit (glass_world.intersect ray_z) = some ⟨4, glass_sphere⟩ ∧
    ((Intersection.mk 4 glass_sphere).prepare_computations ray_z
        (glass_world.intersect ray_z)).n1 = 1 ∧
    ((Intersection.mk 4 glass_sphere).prepare_computations ray_z
        (glass_world.intersect ray_z)).n2 = 1.5 := by
  refine ⟨c1_general, ?_, ?_, ?_⟩
  · rw [glass_world_intersect]
    norm_num [hit, nonneg_filter, List.filter, hit_fold]
  · rw [glass_world_intersect]
    simp [Intersection.prepare_computations, n1n2_full]
  · rw [glass_world_intersect]
    simp [Intersection.prepare_computations, n1n2_full]

/-- C1 witness: on the glass-sphere world the record `color_at` builds
exists and carries n1 = n2 = 1. -/
theorem claim1_witness :
    ∃ r, glass_world.color_at_record ray_z = some r ∧ r.n1 = 1 ∧ r.n2 = 1 := by
  have hr : glass_world.color_at_record ray_z
      = some ((Intersection.mk 4 glass_sphere).prepare_computations ray_z []) := by
    rw [World.color_at_record, glass_world_intersect]
    norm_num [hit, nonneg_filter, List.filter, hit_fold]
  exact ⟨_, hr, claim1_color_at_empty_xs.1 glass_world ray_z _ hr⟩

/-- C2 (code_bug): `Object::normal_at` never consults the parent chain
(first conjunct: its value is independent of the parent field), so for
a child attached to a transformed group it does not apply the ancestor
transforms.  On a test shape attached to a group translated (0,8,0),
queried at world point (3,4,0): `normal_at` returns (3/5, 4/5, 0),
while the conversion chain the claim describes — `world_to_object`,
shape local normal, `normal_to_world`, all source functions — returns
(3/5, −4/5, 0). -/
theorem claim2_normal_at_ignores_ancestors :
    (∀ (s : Shape) (tr : M4) (m : Material) (p1 p2 : Option Object) (pt : Tuple),
        (Object.mk s tr m p1).normal_at pt = (Object.mk s tr m p2).normal_at pt) ∧
    c2_child.parent = some g2_group ∧
    c2_child.normal_at (Tuple.point 3 4 0) = Tuple.vector (3/5) (4/5) 0 ∧
    c2_child.normal_at_spec (Tuple.point 3 4 0) = Tuple.vector (3/5) (-4/5) 0 ∧
    c2_child.normal_at (Tuple.point 3 4 0)
      ≠ c2_child.normal_at_spec (Tuple.point 3 4 0) := by
  refine ⟨?_, rfl, c2_normal_at_eval, c2_normal_at_spec_eval, ?_⟩
  · intro s tr m p1 p2 pt
    rfl
  · rw [c2_normal_at_eval, c2_normal_at_spec_eval]
    simp only [Tuple.vector, ne_eq, Tuple.mk.injEq]
    norm_num

/-- C3 counterexample: at n1 = 4, n2 = 3, cos θi = 4/5 (so cos θt =
3/5), the code's Schlick value uses (1 − |cos θi|)⁵ = (1/5)⁵, whereas
the claim's formula with cos θt gives (1 − cos θt)⁵ = (2/5)⁵; the two
values differ. -/
theorem claim3_counterexample :
    schlick_value 4 3 (4/5) = 1/49 + 48/49 * (1/5)^5 ∧
    schlick_spec 4 3 (4/5) = 1/49 + 48/49 * (2/5)^5 ∧
    schlick_value 4 3 (4/5) ≠ schlick_spec 4 3 (4/5) := by
  have hv : schlick_value 4 3 (4/5) = 1/49 + 48/49 * (1/5)^5 := by
    simp only [schlick_value]
    rw [if_pos (by norm_num), if_neg (by norm_num)]
    rw [show |(4:ℝ)/5| = 4/5 from abs_of_nonneg (by norm_num)]
    norm_num
  have hs : schlick_spec 4 3 (4/5) = 1/49 + 48/49 * (2/5)^5 := by
    simp only [schlick_spec]
    rw [if_pos (by norm_num), if_neg (by norm_num)]
    rw [show (1:ℝ) - ((4:ℝ)/3)^2 * (1 - (4/5)^2) = 9/25 by norm_num]
    rw [sqrt_9_25]
    rw [show |(3:ℝ)/5| = 3/5 from abs_of_nonneg (by norm_num)]
    norm_num
  refine ⟨hv, hs, ?_⟩
  rw [hv, hs]
  norm_num

/-- C3 (corrected): the precomputed Schlick reflectance is 1 exactly
when n1 > n2 and sin²θt > 1; in every other case it is
r0 + (1−r0)(1−|cos θi|)⁵ with the *incidence* cosine in both branches
(the code never substitutes cos θt); at perpendicular incidence leaving
glass (n1 = 1.5, n2 = 1, cos = 1) the value is exactly 0.04, within
1e-4 of 0.04. -/
theorem claim3_schlick_formula :
    (∀ n1 n2 cos : ℝ, n1 > n2 → (n1/n2)^2 * (1 - cos^2) > 1 →
        schlick_value n1 n2 cos = 1) ∧
    (∀ n1 n2 cos : ℝ, ¬(n1 > n2 ∧ (n1/n2)^2 * (1 - cos^2) > 1) →
        schlick_value n1 n2 cos =
          ((n1-n2)/(n1+n2))^2 + (1 - ((n1-n2)/(n1+n2))^2) * (1 - |cos|)^5) ∧
    schlick_value 1.5 1 1 = 0.04 ∧ |schlick_value 1.5 1 1 - 0.04| < 1e-4 := by
  have hperp : schlick_value 1.5 1 1 = 0.04 := by
    simp only [schlick_value]
    rw [if_pos (by norm_num), if_neg (by norm_num)]
    rw [show |(1:ℝ)| = 1 from abs_of_nonneg (by norm_num)]
    norm_num
  refine ⟨?_, ?_, hperp, by rw [hperp]; norm_num⟩
  · intro n1 n2 cos h1 h2
    rw [schlick_value, if_pos h1, if_pos h2]
  · intro n1 n2 cos h
    rw [schlick_value]
    by_cases h1 : n1 > n2
    · rw [if_pos h1, if_neg (fun h2 => h ⟨h1, h2⟩)]
    · rw [if_neg h1]

/-- C3 witness: total internal reflection at n1 = 2, n2 = 1, cos = 0
gives 1; the non-TIR branch at n1 = 1, n2 = 1.5, cos = 1 gives the
incidence-cosine formula. -/
theorem claim3_witness :
    schlick_value 2 1 0 = 1 ∧
    schlick_value 1 1.5 1
      = ((1-1.5)/(1+1.5))^2 + (1 - ((1-1.5)/(1+1.5))^2) * (1 - |(1:ℝ)|)^5 :=
  ⟨claim3_schlick_formula.1 2 1 0 (by norm_num) (by norm_num),
   claim3_schlick_formula.2.1 1 1.5 1 (by
     intro hcontra
     exact absurd hcontra.1 (by norm_num))⟩

/-- C4 counterexample: attach a sphere to a group whose transform is
translation(1,0,0), then set the group's transform to
translation(0,0,9).  The already-attached child's parent is the
attach-time group value, and its `world_to_object` of the origin is
(−1,0,0) — the attach-time transform — not (0,0,−9), the value the
group's *current* transform would give. -/
theorem claim4_counterexample :
    c4_child.parent = some c4_group0 ∧
    (c4_pair.1.set_transform (M4.translation 0 0 9)).transform = M4.translation 0 0 9 ∧
    c4_child.world_to_object (Tuple.point 0 0 0) = Tuple.point (-1) 0 0 ∧
    c4_child.world_to_object (Tuple.point 0 0 0)
      ≠ (M4.translation 0 0 9).inverse.mulT (Tuple.point 0 0 0) := by
  refine ⟨rfl, rfl, c4_w2o, ?_⟩
  rw [c4_w2o, M4.translation_inverse]
  simp [Tuple.point]

/-- C4 (corrected): `add_child` stores a *snapshot* — an `Arc` of a
clone of the group taken at attachment time — as the child's parent.
The child's parent is the attach-time group value, its
`world_to_object` composes with the attach-time ancestor chain, and a
later `set_transform` on the group changes neither the attached child
nor the snapshot parent it carries. -/
theorem claim4_add_child_snapshot :
    ∀ (g s : Object) (cs : List Object), g.shape = Shape.group cs →
      ((g.add_child s).2).parent = some g ∧
      (∀ p, ((g.add_child s).2).world_to_object p
          = s.transform.inverse.mulT (g.world_to_object p)) ∧
      (∀ T, ((g.add_child s).1.set_transform T).shape
          = Shape.group (cs ++ [(g.add_child s).2])) :=
  fun g s cs hg => c4_gen g s cs hg

/-- C4 witness: the snapshot semantics at the concrete scenario. -/
theorem claim4_witness :
    ((c4_group0.add_child Object.sphere).2).parent = some c4_group0 ∧
    ((c4_group0.add_child Object.sphere).2).world_to_object (Tuple.point 0 0 0)
      = Object.sphere.transform.inverse.mulT (c4_group0.world_to_object (Tuple.point 0 0 0)) :=
  ⟨(claim4_add_child_snapshot c4_group0 Object.sphere [] rfl).1,
   (claim4_add_child_snapshot c4_group0 Object.sphere [] rfl).2.1 _⟩

/-- C5 (confirmed): `hit` returns none exactly when every parameter is
negative (so also on the empty list); a returned hit is a nonnegative
member of minimal parameter; it is the *first* such member (everything
before it in the nonnegative filtrate has strictly larger t — ties
broken by list order); and on parameters {5,7,−3,2} it returns t = 2
while on {−2,−1} it returns none. -/
theorem claim5_hit_lowest_nonnegative :
    (∀ xs : List Intersection, hit xs = none ↔ ∀ i ∈ xs, i.t < 0) ∧
    (∀ (xs : List Intersection) (i : Intersection), hit xs = some i →
        i ∈ xs ∧ 0 ≤ i.t ∧ ∀ j ∈ xs, 0 ≤ j.t → i.t ≤ j.t) ∧
    (∀ (xs : List Intersection) (i : Intersection), hit xs = some i →
        ∃ l1 l2, nonneg_filter xs = l1 ++ i :: l2 ∧
          (∀ j ∈ l1, i.t < j.t) ∧ (∀ j ∈ l2, i.t ≤ j.t)) ∧
    hit [⟨5, Object.sphere⟩, ⟨7, Object.sphere⟩, ⟨-3, Object.sphere⟩, ⟨2, Object.sphere⟩]
      = some ⟨2, Object.sphere⟩ ∧
    hit [⟨-2, Object.sphere⟩, ⟨-1, Object.sphere⟩] = none := by
  refine ⟨hit_none_iff, hit_min, hit_some_spec, ?_, ?_⟩
  · norm_num [hit, nonneg_filter, List.filter, hit_fold]
  · norm_num [hit, nonneg_filter, List.filter]

/-- C5 witness: the minimality clause applied to the concrete t = 2
hit. -/
theorem claim5_witness :
    (⟨2, Object.sphere⟩ : Intersection) ∈
      [⟨5, Object.sphere⟩, ⟨7, Object.sphere⟩, ⟨-3, Object.sphere⟩,
       (⟨2, Object.sphere⟩ : Intersection)] ∧
    0 ≤ (⟨2, Object.sphere⟩ : Intersection).t := by
  have h := claim5_hit_lowest_nonnegative
  have hm := h.2.1 _ ⟨2, Object.sphere⟩ h.2.2.2.1
  exact ⟨hm.1, hm.2.1⟩

/-- C6 (confirmed): a group's intersection is the sort of the
concatenation of its children's intersections of the group-local ray —
the group contributes nothing of its own; the sort is ascending in t
and a permutation of the concatenation; on the three-sphere group the
axis ray yields exactly [1, 3, 4, 6] with the nearest two intersections
on the −3-translated sphere. -/
theorem claim6_group_intersection :
    (∀ (children : List Object) (tr : M4) (m : Material) (par : Option Object) (ray : Ray),
        (Object.mk (Shape.group children) tr m par).intersect ray
          = sortByT (intersect_children children (ray.transform tr.inverse))) ∧
    (∀ xs, List.Sorted interLE (sortByT xs)) ∧
    (∀ xs, (sortByT xs).Perm xs) ∧
    c6_group.intersect c6_ray = [⟨1, c6_s2⟩, ⟨3, c6_s2⟩, ⟨4, c6_s1⟩, ⟨6, c6_s1⟩] :=
  ⟨group_intersect_eq, sortByT_sorted, sortByT_perm, c6_concrete⟩

/-- C7 counterexample: a zero-direction ray does *not* yield an empty
intersection set — the sphere returns a (two-element) junk list because
the discriminant is exactly 0, and the cube returns the degenerate
slab [−∞, +∞]. -/
theorem claim7_counterexample :
    sphere_local_intersect Object.sphere ⟨Tuple.point 0 0 (-5), Tuple.vector 0 0 0⟩ ≠ [] ∧
    cube_local_intersect_t ⟨Tuple.point 0 0 0, Tuple.vector 0 0 0⟩ ≠ [] := by
  constructor
  · intro h
    have h2 := c7_sphere_gen Object.sphere (Tuple.point 0 0 (-5))
    rw [h] at h2
    simp at h2
  · intro h
    rw [c7_cube_eval] at h
    simp at h

/-- C7 (corrected): a zero-length direction is not an error (the
routines total and return), but the result is a two-element list of
meaningless parameters, not an empty list: the sphere's quadratic
degenerates to discriminant 0 and produces two 0/0 parameters (NaN in
IEEE), for every ray origin; the cube's slab test at the origin
produces [−∞, +∞]. -/
theorem claim7_zero_direction_not_empty :
    (∀ (obj : Object) (origin : Tuple),
        (sphere_local_intersect obj ⟨origin, Tuple.vector 0 0 0⟩).length = 2) ∧
    cube_local_intersect_t ⟨Tuple.point 0 0 0, Tuple.vector 0 0 0⟩ = [⊥, ⊤] :=
  ⟨c7_sphere_gen, c7_cube_eval⟩

/-- C8 counterexample: closed cone clipped to [−100, 4], ray from
(3,10,0) straight down.  The max-cap crossing at t = 6 lies in the cap
disk of radius 4 (x²+z² = 9 ≤ 16 = m²), yet `check_cap` rejects it
(9 ≤ |4| fails) and no intersection at t = 6 is returned. -/
theorem claim8_counterexample :
    ((c8_ray.origin.x + 6 * c8_ray.direction.x) ^ 2 +
        (c8_ray.origin.z + 6 * c8_ray.direction.z) ^ 2 ≤ 4 ^ 2) ∧
    ¬ cone_check_cap c8_ray 6 4 ∧
    (6:ℝ) ∉ (cone_local_intersect (-100) 4 true c8_obj c8_ray).map Intersection.t := by
  refine ⟨?_, ?_, ?_⟩
  · simp only [c8_ray, Tuple.point, Tuple.vector]
    norm_num
  · simp only [cone_check_cap, c8_ray, Tuple.point, Tuple.vector]
    norm_num
  · rw [c8_result]
    norm_num

/-- C8 (corrected): a cap-plane crossing is counted iff the cone is
closed, the ray's y-direction is at least the 1e-6 tolerance, and the
crossing satisfies x² + z² ≤ |m| — the squared distance compared
against the *unsquared* cap radius |m|, not m².  On the concrete scene
the counted parameters are [7, 13, 110]: both lateral hits and the
min-cap crossing (9 ≤ |−100|), with the in-disk max-cap crossing at 6
dropped. -/
theorem claim8_cap_radius_test :
    (∀ (mn mx : ℝ) (closed : Bool) (obj : Object) (ray : Ray) (i : Intersection),
        i ∈ cone_intersect_caps mn mx closed obj ray ↔
          (closed = true ∧ 1e-6 ≤ |ray.direction.y| ∧
            ((i = ⟨(mn - ray.origin.y) / ray.direction.y, obj⟩ ∧
              (ray.origin.x + ((mn - ray.origin.y) / ray.direction.y) * ray.direction.x) ^ 2 +
                (ray.origin.z + ((mn - ray.origin.y) / ray.direction.y) * ray.direction.z) ^ 2
                  ≤ |mn|) ∨
             (i = ⟨(mx - ray.origin.y) / ray.direction.y, obj⟩ ∧
              (ray.origin.x + ((mx - ray.origin.y) / ray.direction.y) * ray.direction.x) ^ 2 +
                (ray.origin.z + ((mx - ray.origin.y) / ray.direction.y) * ray.direction.z) ^ 2
                  ≤ |mx|)))) ∧
    (cone_local_intersect (-100) 4 true c8_obj c8_ray).map Intersection.t = [7, 13, 110] :=
  ⟨c8_caps_gen, c8_result c8_obj⟩

/-- C9 (confirmed): container membership in `prepare_computations` uses
the derived structural equality.  Two *distinct* objects (ids 0 and 1)
that are structurally equal glass spheres: entering the second removes
the first from the containers (`toggle_container` empties the stack),
so the code's bookkeeping yields (n1, n2) = (1.5, 1), while
identity-based bookkeeping nests and yields (1.5, 1.5). -/
theorem claim9_structural_equality_containers :
    (⟨0, 1, glass_sphere⟩ : IdInter).oid ≠ (⟨1, 2, glass_sphere⟩ : IdInter).oid ∧
    (⟨0, 1, glass_sphere⟩ : IdInter).obj = (⟨1, 2, glass_sphere⟩ : IdInter).obj ∧
    toggle_container [glass_sphere] glass_sphere = [] ∧
    n1n2_code c9_self c9_xs = (1.5, 1) ∧
    n1n2_ident c9_self c9_xs = (1.5, 1.5) ∧
    n1n2_code c9_self c9_xs ≠ n1n2_ident c9_self c9_xs := by
  refine ⟨by norm_num, rfl, by simp [toggle_container, List.filter],
    c9_code_eval, c9_ident_eval, ?_⟩
  rw [c9_code_eval, c9_ident_eval]
  intro h
  rw [Prod.mk.injEq] at h
  norm_num at h

/-- C10 (confirmed): `is_shadowed` unconditionally reads `lights[0]`;
with an empty light list the indexing panics (modelled as `none`), and
with at least one light it always produces a boolean — so the function
carries the precondition that the world has at least one light. -/
theorem claim10_is_shadowed_first_light :
    (∀ (w : World) (p : Tuple), w.lights = [] → w.is_shadowed p = none) ∧
    (∀ (w : World) (p : Tuple), w.lights ≠ [] → ∃ b, w.is_shadowed p = some b) := by
  constructor
  · intro w p h
    rw [World.is_shadowed, h]
    rfl
  · intro w p h
    rw [World.is_shadowed]
    cases hl : w.lights with
    | nil => exact absurd hl h
    | cons l ls => exact ⟨_, rfl⟩

/-- C10 witness: the lightless world panics (none); the glass world,
which has a light, produces a boolean. -/
theorem claim10_witness :
    (World.mk [] []).is_shadowed (Tuple.point 0 0 0) = none ∧
    ∃ b, glass_world.is_shadowed (Tuple.point 0 0 0) = some b :=
  ⟨claim10_is_shadowed_first_light.1 _ _ rfl,
   claim10_is_shadowed_first_light.2 glass_world _ (by
     intro h
     simp [glass_world] at h)⟩

end RT
